import Mathlib

/-!
Verification of the nanoclaw multi-tenant execution coordinator.

Shallow embedding of the coordinator source:
  snapshots.ts   : writeTasksSnapshot
  index.ts       : startIpcWatcher (per-file claim / dead-letter protocol,
                   inline message-command handler), processTaskIpc,
                   processGroupMessages, sendMessage echo tracking,
                   messages.upsert inbound handler
  group-queue.ts : modelled from the spec (file absent from the sources)

External primitives (cron parser, parseInt, Date parsing, the WhatsApp
socket, the SQLite layer) are abstracted as parameters, mirroring the
spec, which treats them as external collaborators consumed at a small
interface.
-/

namespace Nanoclaw

/-- JS truthiness of an optional string field of a parsed JSON command:
absent and empty strings are falsy. -/
def truthy : Option String → Bool
  | none => false
  | some s => s ≠ ""

/-- A registered tenant (called group in the source), from types.ts as
used by index.ts. -/
structure RegisteredGroup where
  name : String
  folder : String
  trigger : String
  requiresTrigger : Option Bool := none
  added_at : String := ""
  deriving Repr, DecidableEq

/-- A scheduled task record, shaped as the createTask argument in
processTaskIpc (index.ts). -/
structure Task where
  id : String
  group_folder : String
  chat_jid : String
  prompt : String
  schedule_type : String
  schedule_value : String
  context_mode : String
  next_run : Option String
  status : String
  created_at : String
  deriving Repr, DecidableEq

/-- The parsed JSON payload of a command file: the field set of the data
argument of processTaskIpc, also covering the inline message branch of
the IPC watcher. Absent JSON fields are none. -/
structure IpcData where
  type : String
  taskId : Option String := none
  prompt : Option String := none
  schedule_type : Option String := none
  schedule_value : Option String := none
  context_mode : Option String := none
  chatJid : Option String := none
  text : Option String := none
  targetJid : Option String := none
  jid : Option String := none
  name : Option String := none
  folder : Option String := none
  trigger : Option String := none
  deriving Repr, DecidableEq

/-- Observable side effects of the IPC handlers and of the message
processing path: store writes, outbound sends, registrations, logging. -/
inductive Effect
  | createTask (t : Task)
  | updateTaskStatus (id status : String)
  | deleteTaskEff (id : String)
  | registerGroupEff (jid : String) (g : RegisteredGroup)
  | syncGroups
  | sendMsg (jid text : String)
  | runAgentEff (folder prompt : String)
  | storeChatMeta (jid : String)
  | storeMessageEff (jid : String)
  | logWarn (what : String)
  | logInfo (what : String)
  deriving Repr, DecidableEq

/-- Tasks created by a list of effects. -/
def createdTasks (effs : List Effect) : List Task :=
  effs.filterMap fun e =>
    match e with
    | .createTask t => some t
    | _ => none

/-- Outbound messages sent by a list of effects. -/
def sentMessages (effs : List Effect) : List (String × String) :=
  effs.filterMap fun e =>
    match e with
    | .sendMsg jid text => some (jid, text)
    | _ => none

/-- Tenant registrations performed by a list of effects. -/
def registeredByEffects (effs : List Effect) : List (String × RegisteredGroup) :=
  effs.filterMap fun e =>
    match e with
    | .registerGroupEff jid g => some (jid, g)
    | _ => none

/-- External primitives and ambient state consumed by processTaskIpc:
the in-memory registeredGroups map, the task table, the cron parser
(CronExpressionParser.parse followed by next().toISOString(); none when
parse throws), parseInt(v, 10) (none when NaN), Date-string parsing
normalised to ISO (none when the timestamp is invalid), the current
time, and the generated fresh task id. -/
structure IpcEnv where
  registeredGroups : String → Option RegisteredGroup
  tasks : List Task
  cronNext : String → Option String
  parseIntJS : String → Option Int
  dateParseIso : String → Option String
  nowIso : String
  nowPlusIso : Int → String
  freshTaskId : String

/-- Lookup of getTaskById over the task table: first task with the given
id. -/
def getTaskById (tasks : List Task) (id : String) : Option Task :=
  tasks.find? (fun t => t.id == id)

/-- The authorization condition of the pause, resume and cancel
handlers of processTaskIpc: the task exists and the issuer is the main
tenant or owns the task folder. -/
def taskAuthorized (tasks : List Task) (tid sourceGroup : String)
    (isMain : Bool) : Bool :=
  match getTaskById tasks tid with
  | some task => isMain || task.group_folder == sourceGroup
  | none => false

/-- The resolved context_mode: the source keeps the supplied value only
when it is group or isolated, defaulting to isolated. -/
def resolveContextMode (cm : Option String) : String :=
  if cm = some "group" ∨ cm = some "isolated" then cm.getD "isolated" else "isolated"

/-- The schedule_task branch of processTaskIpc, after the required-field
check: resolve the target group, authorize, validate the schedule
expression, and create exactly one task on success. -/
def scheduleTaskBranch (env : IpcEnv) (data : IpcData) (sourceGroup : String)
    (isMain : Bool) : List Effect :=
  let targetJid := data.targetJid.getD ""
  match env.registeredGroups targetJid with
  | none => [.logWarn "Cannot schedule task: target group not registered"]
  | some tg =>
    if !isMain ∧ tg.folder ≠ sourceGroup then
      [.logWarn "Unauthorized schedule_task attempt blocked"]
    else
      let sv := data.schedule_value.getD ""
      let st := data.schedule_type.getD ""
      let mkTask (nextRun : Option String) : List Effect :=
        [.createTask
          { id := env.freshTaskId
            group_folder := tg.folder
            chat_jid := targetJid
            prompt := data.prompt.getD ""
            schedule_type := st
            schedule_value := sv
            context_mode := resolveContextMode data.context_mode
            next_run := nextRun
            status := "active"
            created_at := env.nowIso },
         .logInfo "Task created via IPC"]
      if st = "cron" then
        match env.cronNext sv with
        | none => [.logWarn "Invalid cron expression"]
        | some nr => mkTask (some nr)
      else if st = "interval" then
        match env.parseIntJS sv with
        | none => [.logWarn "Invalid interval"]
        | some ms => if ms ≤ 0 then [.logWarn "Invalid interval"] else mkTask (some (env.nowPlusIso ms))
      else if st = "once" then
        match env.dateParseIso sv with
        | none => [.logWarn "Invalid timestamp"]
        | some iso => mkTask (some iso)
      else
        mkTask none

/-- Embedding of processTaskIpc (index.ts): dispatch on the type tag of
the command, with the issuing tenant identity taken from the mailbox
directory (sourceGroup, isMain), never from the payload. -/
def processTaskIpc (env : IpcEnv) (data : IpcData) (sourceGroup : String)
    (isMain : Bool) : List Effect :=
  if data.type = "schedule_task" then
    if truthy data.prompt ∧ truthy data.schedule_type ∧
        truthy data.schedule_value ∧ truthy data.targetJid then
      scheduleTaskBranch env data sourceGroup isMain
    else []
  else if data.type = "pause_task" then
    if truthy data.taskId then
      let tid := data.taskId.getD ""
      match getTaskById env.tasks tid with
      | some task =>
        if isMain ∨ task.group_folder = sourceGroup then
          [.updateTaskStatus tid "paused", .logInfo "Task paused via IPC"]
        else [.logWarn "Unauthorized task pause attempt"]
      | none => [.logWarn "Unauthorized task pause attempt"]
    else []
  else if data.type = "resume_task" then
    if truthy data.taskId then
      let tid := data.taskId.getD ""
      match getTaskById env.tasks tid with
      | some task =>
        if isMain ∨ task.group_folder = sourceGroup then
          [.updateTaskStatus tid "active", .logInfo "Task resumed via IPC"]
        else [.logWarn "Unauthorized task resume attempt"]
      | none => [.logWarn "Unauthorized task resume attempt"]
    else []
  else if data.type = "cancel_task" then
    if truthy data.taskId then
      let tid := data.taskId.getD ""
      match getTaskById env.tasks tid with
      | some task =>
        if isMain ∨ task.group_folder = sourceGroup then
          [.deleteTaskEff tid, .logInfo "Task cancelled via IPC"]
        else [.logWarn "Unauthorized task cancel attempt"]
      | none => [.logWarn "Unauthorized task cancel attempt"]
    else []
  else if data.type = "refresh_groups" then
    if isMain then
      [.logInfo "Group metadata refresh requested via IPC", .syncGroups]
    else [.logWarn "Unauthorized refresh_groups attempt blocked"]
  else if data.type = "register_group" then
    if !isMain then [.logWarn "Unauthorized register_group attempt blocked"]
    else if truthy data.jid ∧ truthy data.name ∧ truthy data.folder ∧ truthy data.trigger then
      [.registerGroupEff (data.jid.getD "")
        { name := data.name.getD ""
          folder := data.folder.getD ""
          trigger := data.trigger.getD ""
          requiresTrigger := none
          added_at := env.nowIso }]
    else [.logWarn "Invalid register_group request - missing required fields"]
  else
    [.logWarn "Unknown IPC task type"]

/-- Embedding of the inline message-command handler of the IPC watcher
(index.ts): a message command is sent only when the issuer is the main
tenant or the target chat resolves to a group whose folder equals the
issuing mailbox directory. -/
def processMessageIpc (regs : String → Option RegisteredGroup) (assistantName : String)
    (data : IpcData) (sourceGroup : String) (isMain : Bool) : List Effect :=
  if data.type = "message" ∧ truthy data.chatJid ∧ truthy data.text then
    let target := data.chatJid.getD ""
    let authorized : Bool :=
      isMain || (match regs target with
                 | some tg => tg.folder == sourceGroup
                 | none => false)
    if authorized then
      [.sendMsg target (assistantName ++ ": " ++ data.text.getD ""),
       .logInfo "IPC message sent"]
    else
      [.logWarn "Unauthorized IPC message attempt blocked"]
  else []

/-- Application of the store effects of processTaskIpc to the task
table, with the CRUD semantics of the store interface (single-record
insert, status update keyed by id, delete keyed by id). -/
def applyEffectTasks (tasks : List Task) : Effect → List Task
  | .createTask t => tasks ++ [t]
  | .updateTaskStatus id st =>
      tasks.map fun t => if t.id = id then { t with status := st } else t
  | .deleteTaskEff id => tasks.filter fun t => t.id ≠ id
  | _ => tasks

/-- Fold of applyEffectTasks over an effect list. -/
def applyEffectsTasks (tasks : List Task) (effs : List Effect) : List Task :=
  effs.foldl applyEffectTasks tasks

/-! ## Mailbox filesystem protocol (IPC watcher, index.ts) -/

/-- Suffix test on strings, the model of the endsWith filter of the
watcher: the reversed data of the string starts with the reversed data
of the suffix. -/
def strEndsWith (s suf : String) : Bool :=
  decide (s.data.reverse.take suf.data.length = suf.data.reverse)

/-- One mailbox directory of a tenant together with the shared errors
(dead-letter) directory: listed command files, claimed files under the
.processing suffix, and dead-lettered files, each with its content. -/
structure MailboxFs where
  pending : List (String × String)
  processing : List (String × String)
  errors : List (String × String)
  deriving Repr, DecidableEq

/-- Content of a file in a directory listing, none when absent. -/
def fileContent (l : List (String × String)) (k : String) : Option String :=
  (l.find? (fun p => p.1 == k)).map (fun p => p.2)

/-- Removal of a file from a directory listing. -/
def removeFile (l : List (String × String)) (k : String) : List (String × String) :=
  l.filter (fun p => p.1 ≠ k)

/-- Filesystem operations performed while a command file is processed,
in order. -/
inductive FsOp
  | rename (src dst : String)
  | readFile (p : String)
  | applyCmd (content : String)
  | unlink (p : String)
  | moveToErrors (src dst : String)
  deriving Repr, DecidableEq

/-- Files visible to one poll tick of the watcher: the directory entries
whose name ends in .json, as in the readdir filter of the source. -/
def listCommandFiles (entries : List String) : List String :=
  entries.filter (fun f => strEndsWith f ".json")

/-- Embedding of the per-file body of the IPC watcher loop (index.ts):
claim the file by an atomic rename to the .processing suffix, then read
and parse it, apply the handler, and unlink on success; on a parse or
handler failure the catch block moves the claimed file, content
untouched, into the errors directory under the source-tenant folder and
the original name. A rename of an absent file throws, reaching the
catch block before anything was read; there the stale .processing file,
when one exists, is dead-lettered, and otherwise nothing happens.
parseOk and handlerThrows abstract JSON.parse and the command handler,
both opaque fallible calls. -/
def processOneFile (parseOk : String → Bool) (handlerThrows : String → Bool)
    (sourceGroup : String) (fs : MailboxFs) (file : String) :
    MailboxFs × List FsOp :=
  let procName := file ++ ".processing"
  let errName := sourceGroup ++ "-" ++ file
  match fileContent fs.pending file with
  | none =>
    match fileContent fs.processing procName with
    | some c =>
      ({ fs with processing := removeFile fs.processing procName
                 errors := (errName, c) :: fs.errors },
       [.moveToErrors procName errName])
    | none => (fs, [])
  | some content =>
    let fs1 : MailboxFs :=
      { pending := removeFile fs.pending file
        processing := (procName, content) :: fs.processing
        errors := fs.errors }
    if parseOk content ∧ ¬ handlerThrows content then
      ({ fs1 with processing := removeFile fs1.processing procName },
       [.rename file procName, .readFile procName, .applyCmd content, .unlink procName])
    else if parseOk content then
      ({ fs1 with processing := removeFile fs1.processing procName
                  errors := (errName, content) :: fs.errors },
       [.rename file procName, .readFile procName, .applyCmd content,
        .moveToErrors procName errName])
    else
      ({ fs1 with processing := removeFile fs1.processing procName
                  errors := (errName, content) :: fs.errors },
       [.rename file procName, .readFile procName, .moveToErrors procName errName])

/-! ## Message processing (processGroupMessages, index.ts) -/

/-- One stored chat message as returned by getMessagesSince. -/
structure Msg where
  sender_name : String
  content : String
  timestamp : String
  deriving Repr, DecidableEq

/-- Outcome of the runAgent call as observed by processGroupMessages:
either an error string, or a successful result with an output type and
an optional user-facing message. -/
inductive AgentResponse
  | err (e : String)
  | ok (outputType : String) (userMessage : Option String)
  deriving Repr, DecidableEq

/-- Result of processGroupMessages: the drained flag it returns, the
updated per-group cursor lastAgentTimestamp, and the side effects. -/
structure PgmResult where
  drained : Bool
  cursor : Option String
  effects : List Effect
  deriving Repr, DecidableEq

/-- Embedding of processGroupMessages (index.ts). triggerTest models
TRIGGER_PATTERN.test applied to the trimmed message content; the
executor call is abstracted by its observed response. The per-group
cursor is advanced to the timestamp of the last pending message both on
agent success and on agent error; on the no-trigger early return, and
when nothing is pending, the cursor is left untouched and no effect is
performed. -/
def processGroupMessages (mainFolder assistantName : String)
    (triggerTest : String → Bool) (group : RegisteredGroup) (chatJid : String)
    (pending : List Msg) (response : AgentResponse) (cursor : Option String) :
    PgmResult :=
  let isMainGroup := group.folder == mainFolder
  if pending.isEmpty then ⟨true, cursor, []⟩
  else if ¬ isMainGroup ∧ group.requiresTrigger ≠ some false ∧
      ¬ pending.any (fun m => triggerTest m.content) then
    ⟨true, cursor, []⟩
  else
    let lastTs := (pending.getLast?).map (fun m => m.timestamp)
    match response with
    | .err e =>
      ⟨true, lastTs,
        [.runAgentEff group.folder "", .sendMsg chatJid ("[Agent Error] " ++ e)]⟩
    | .ok outputType userMessage =>
      ⟨true, lastTs,
        [.runAgentEff group.folder ""] ++
          (if outputType = "message" ∧ truthy userMessage then
            [.sendMsg chatJid (assistantName ++ ": " ++ userMessage.getD "")]
          else [])⟩

/-! ## Task snapshot (snapshots.ts) -/

/-- One entry of the tasks snapshot, the parameter shape of
writeTasksSnapshot. -/
structure SnapTask where
  id : String
  groupFolder : String
  prompt : String
  schedule_type : String
  schedule_value : String
  status : String
  next_run : Option String
  deriving Repr, DecidableEq

/-- Embedding of writeTasksSnapshot (snapshots.ts), returning the
content written to the snapshot file: the main tenant sees every task,
any other tenant sees only the tasks whose owning folder equals its
own. -/
def writeTasksSnapshot (groupFolder : String) (isMain : Bool)
    (tasks : List SnapTask) : List SnapTask :=
  if isMain then tasks else tasks.filter (fun t => t.groupFolder == groupFolder)

/-! ## Echo-back protection (sendMessage and messages.upsert, index.ts) -/

/-- One inbound WhatsApp message event as consumed by the
messages.upsert handler. -/
structure InboundMsg where
  hasMessage : Bool
  remoteJid : Option String
  keyId : Option String
  fromMe : Bool
  deriving Repr, DecidableEq

/-- Embedding of the id-tracking step of sendMessage (index.ts): when
the socket returns a message id, it is added to the sentMessageIds set
(modelled as a list); without an id nothing is recorded. The 60-second
expiry is a separate deletion not modelled here. -/
def sendMessageTrack (sentIds : List String) (resultKeyId : Option String) :
    List String :=
  match resultKeyId with
  | some id => id :: sentIds
  | none => sentIds

/-- Embedding of the per-message body of the messages.upsert handler
(index.ts): events without content, without a chat jid, or from the
status broadcast are dropped; an event whose id is in the sent-id set is
an echo of an own outbound message and is skipped, its id removed,
before any store write; otherwise chat metadata is stored and, for a
registered chat, the full message. translate models the LID-to-phone
jid translation. Returns the updated sent-id set and the store
effects. -/
def handleInbound (regs : String → Option RegisteredGroup)
    (translate : String → String) (sentIds : List String) (msg : InboundMsg) :
    List String × List Effect :=
  if ¬ msg.hasMessage then (sentIds, [])
  else
    match msg.remoteJid with
    | none => (sentIds, [])
    | some rawJid =>
      if rawJid = "status@broadcast" then (sentIds, [])
      else
        match msg.keyId with
        | some id =>
          if sentIds.contains id then (sentIds.erase id, [])
          else
            let chatJid := translate rawJid
            (sentIds,
              [.storeChatMeta chatJid] ++
                (if (regs chatJid).isSome then [.storeMessageEff chatJid] else []))
        | none =>
          let chatJid := translate rawJid
          (sentIds,
            [.storeChatMeta chatJid] ++
              (if (regs chatJid).isSome then [.storeMessageEff chatJid] else []))

/-! ## Execution queue (group-queue.ts, modelled from the spec) -/

/-- Modelled from the spec: status of the per-tenant execution slot
(spec section 3, Execution Slot). The file group-queue.ts is not among
the sources; only its call sites in index.ts are. -/
inductive SlotStatus
  | idle
  | queued
  | running
  deriving Repr, DecidableEq

/-- Modelled from the spec: the state of the execution queue (spec
section 4.1) — the per-tenant slot statuses, the per-tenant re-check
after completion bit, the list of running executions, and the global
concurrency bound. The file group-queue.ts is not among the sources. -/
structure QueueState where
  status : String → SlotStatus
  recheck : String → Bool
  runningList : List String
  maxConcurrent : Nat

/-- Modelled from the spec: the initial queue state — every tenant
idle, no re-check bit set, nothing running. -/
def initQueue (maxConc : Nat) : QueueState :=
  { status := fun _ => .idle
    recheck := fun _ => false
    runningList := []
    maxConcurrent := maxConc }

/-- Modelled from the spec: the signal operation of the queue (spec
section 4.1) — an idle tenant becomes queued; a running tenant only has
its re-check bit set; a queued tenant is unchanged (repeated signals
while queued do not multiply work). -/
def signalQ (s : QueueState) (t : String) : QueueState :=
  match s.status t with
  | .idle => { s with status := fun x => if x = t then .queued else s.status x }
  | .running => { s with recheck := fun x => if x = t then true else s.recheck x }
  | .queued => s

/-- Modelled from the spec: the transition relation of the execution
queue (spec section 4.1) — signal, dispatch of a queued tenant under
the global concurrency budget, and completion, which re-enters queued
exactly when the re-check bit was set meanwhile. -/
inductive QStep : QueueState → QueueState → Prop
  | signal (s : QueueState) (t : String) : QStep s (signalQ s t)
  | dispatch (s : QueueState) (t : String) :
      s.status t = .queued → s.runningList.length < s.maxConcurrent →
      QStep s
        { s with status := fun x => if x = t then .running else s.status x
                 runningList := t :: s.runningList }
  | complete (s : QueueState) (t : String) :
      s.status t = .running →
      QStep s
        { s with
            status := fun x =>
              if x = t then (if s.recheck t then .queued else .idle) else s.status x
            recheck := fun x => if x = t then false else s.recheck x
            runningList := s.runningList.erase t }

/-- Modelled from the spec: the states the queue can reach from the
initial state. -/
inductive QReachable (maxConc : Nat) : QueueState → Prop
  | init : QReachable maxConc (initQueue maxConc)
  | step {s s' : QueueState} : QReachable maxConc s → QStep s s' →
      QReachable maxConc s'

/-- Inductive invariant of the queue: a tenant is on the running list
exactly when its slot status is running, and the running list has no
duplicates. -/
def QInv (s : QueueState) : Prop :=
  s.runningList.Nodup ∧ ∀ t, t ∈ s.runningList ↔ s.status t = .running

/-- Observation helper: whether an effect is an authorization-warning
log entry. -/
def isLogWarn : Effect → Bool
  | .logWarn _ => true
  | _ => false

/-- Observation helper: whether a filesystem operation reads a file. -/
def isReadOp : FsOp → Bool
  | .readFile _ => true
  | _ => false

/-- Observation helper: whether a filesystem operation applies a
command. -/
def isApplyOp : FsOp → Bool
  | .applyCmd _ => true
  | _ => false

/-! ## Helper lemmas -/

/-- Removing a file removes it from the listing. -/
theorem fileContent_removeFile (l : List (String × String)) (k : String) :
    fileContent (removeFile l k) k = none := by
  induction l with
  | nil => rfl
  | cons p rest ih =>
    simp only [removeFile, decide_not] at ih ⊢
    by_cases h : p.1 = k
    · simp [h, ih]
    · simp [fileContent, h, ih]

/-- A claimed file, carrying the .processing suffix, never passes the
.json listing filter. -/
theorem strEndsWith_processing_json (f : String) :
    strEndsWith (f ++ ".processing") ".json" = false := by
  have hdata : (f ++ ".processing").data = f.data ++ ".processing".data :=
    String.data_append f ".processing"
  simp only [strEndsWith, hdata, List.reverse_append, decide_eq_false_iff_not]
  rw [List.take_append_eq_append_take]
  intro h
  have h5 : (".processing".data.reverse.take (".json".data.length)).length = 5 := by decide
  have : (".processing".data.reverse.take (".json".data.length) ++
      f.data.reverse.take (".json".data.length - ".processing".data.reverse.length)).length = 5 := by
    rw [h]; decide
  rw [List.length_append, h5] at this
  have hz : (f.data.reverse.take (".json".data.length - ".processing".data.reverse.length)).length = 0 := by
    omega
  rw [List.length_eq_zero] at hz
  rw [hz, List.append_nil] at h
  revert h
  decide

/-- The queue invariant holds initially. -/
theorem qinv_init (m : Nat) : QInv (initQueue m) := by
  refine ⟨List.nodup_nil, fun t => ?_⟩
  simp [initQueue]

/-- The queue invariant is preserved by every queue transition. -/
theorem qinv_step {s s' : QueueState} (hs : QInv s) (hstep : QStep s s') :
    QInv s' := by
  obtain ⟨hnd, hmem⟩ := hs
  cases hstep with
  | signal t =>
    cases hst : s.status t <;> simp only [signalQ, hst]
    · refine ⟨hnd, fun x => ?_⟩
      by_cases hx : x = t
      · subst hx
        simp only [if_pos rfl]
        constructor
        · intro hin
          have := (hmem x).mp hin
          rw [hst] at this
          exact absurd this (by simp)
        · intro h
          exact absurd h (by simp)
      · simpa [hx] using hmem x
    · exact ⟨hnd, hmem⟩
    · exact ⟨hnd, hmem⟩
  | dispatch t hq hlt =>
    have htn : t ∉ s.runningList := by
      intro hin
      have := (hmem t).mp hin
      rw [hq] at this
      exact absurd this (by simp)
    refine ⟨List.nodup_cons.mpr ⟨htn, hnd⟩, fun x => ?_⟩
    by_cases hx : x = t
    · subst hx
      simp [List.mem_cons]
    · simp only [List.mem_cons, if_neg hx]
      constructor
      · intro h
        rcases h with h | h
        · exact absurd h hx
        · exact (hmem x).mp h
      · intro h
        exact Or.inr ((hmem x).mpr h)
  | complete t hr =>
    refine ⟨hnd.erase t, fun x => ?_⟩
    by_cases hx : x = t
    · subst hx
      simp only [if_pos rfl]
      constructor
      · intro hin
        exact absurd hin (hnd.not_mem_erase)
      · intro h
        cases hb : s.recheck x <;> rw [hb] at h <;> exact absurd h (by simp)
    · rw [List.mem_erase_of_ne hx]
      simpa [hx] using hmem x

/-- Every reachable queue state satisfies the invariant. -/
theorem qinv_reachable {m : Nat} {s : QueueState} (hr : QReachable m s) :
    QInv s := by
  induction hr with
  | init => exact qinv_init m
  | step _ hstep ih => exact qinv_step ih hstep

/-- Signaling a running tenant a second time changes nothing beyond the
first signal. -/
theorem signalQ_idem (s : QueueState) (t : String) :
    signalQ (signalQ s t) t = signalQ s t := by
  cases hst : s.status t
  · simp [signalQ, hst]
  · simp [signalQ, hst]
  · simp only [signalQ, hst]
    congr 1
    funext x
    by_cases hx : x = t <;> simp [hx]

/-- A schedule command issued by a non-main tenant whose target does
not resolve to the issuing tenant folder creates no task and logs a
warning. -/
theorem scheduleTaskBranch_blocked (env : IpcEnv) (data : IpcData)
    (sourceGroup : String)
    (hS : (match env.registeredGroups (data.targetJid.getD "") with
           | some tg => tg.folder == sourceGroup
           | none => false) = false) :
    createdTasks (scheduleTaskBranch env data sourceGroup false) = [] ∧
    (scheduleTaskBranch env data sourceGroup false).any isLogWarn = true := by
  unfold scheduleTaskBranch
  dsimp only
  rcases hreg : env.registeredGroups (data.targetJid.getD "") with - | tg
  · simp [createdTasks, isLogWarn]
  · rw [hreg] at hS
    have hne : tg.folder ≠ sourceGroup := by
      simpa [beq_eq_false_iff_ne] using hS
    simp [hne, createdTasks, isLogWarn]

/-! ## Claim theorems -/

/-- C3: in every reachable state of the execution queue, at most one
execution of any tenant is running, and a signal arriving while the
tenant runs is coalesced — a second signal changes nothing beyond the
first, so repeated signals yield at most one follow-up execution.
Modelled from the spec, as group-queue.ts is absent from the
sources. -/
theorem per_tenant_single_running (m : Nat) (s : QueueState) (t : String)
    (hr : QReachable m s) :
    s.runningList.count t ≤ 1 ∧
    (s.status t = .running → signalQ (signalQ s t) t = signalQ s t) := by
  obtain ⟨hnd, -⟩ := qinv_reachable hr
  exact ⟨List.nodup_iff_count_le_one.mp hnd t, fun _ => signalQ_idem s t⟩

/-- Witness for C3 at the initial queue with bound 2 and one tenant. -/
theorem per_tenant_single_running_witness :
    QReachable 2 (initQueue 2) ∧
    ((initQueue 2).runningList.count "alice" ≤ 1 ∧
      ((initQueue 2).status "alice" = .running →
        signalQ (signalQ (initQueue 2) "alice") "alice" =
          signalQ (initQueue 2) "alice")) :=
  ⟨QReachable.init,
    per_tenant_single_running 2 (initQueue 2) "alice" QReachable.init⟩

/-- C8: the tasks snapshot of the main tenant contains all tasks; the
snapshot of any other tenant is exactly the tasks owned by its folder,
and so never contains another tenant task. -/
theorem tasksSnapshot_isolation (groupFolder : String) (tasks : List SnapTask) :
    writeTasksSnapshot groupFolder true tasks = tasks ∧
    writeTasksSnapshot groupFolder false tasks =
      tasks.filter (fun t => t.groupFolder == groupFolder) ∧
    (writeTasksSnapshot groupFolder false tasks).all
      (fun t => t.groupFolder == groupFolder) = true := by
  refine ⟨rfl, rfl, ?_⟩
  simp only [writeTasksSnapshot, if_neg Bool.false_ne_true, List.all_eq_true,
    List.mem_filter]
  exact fun t ht => ht.2

/-- C10: a non-main tenant whose requires-explicit-trigger flag is not
false, with no pending message matching the trigger, is reported
drained with no executor call, no side effect, and an unchanged
per-group cursor. -/
theorem untriggered_messages_left_pending
    (mainFolder assistantName : String) (triggerTest : String → Bool)
    (group : RegisteredGroup) (chatJid : String) (pending : List Msg)
    (response : AgentResponse) (cursor : Option String)
    (hnm : group.folder ≠ mainFolder)
    (hrt : group.requiresTrigger ≠ some false)
    (hno : pending.all (fun m => !triggerTest m.content) = true) :
    processGroupMessages mainFolder assistantName triggerTest group chatJid
      pending response cursor = ⟨true, cursor, []⟩ := by
  unfold processGroupMessages
  by_cases hemp : pending.isEmpty
  · simp [hemp]
  · have hany : pending.any (fun m => triggerTest m.content) = false := by
      rw [List.any_eq_false]
      intro m hm
      have := List.all_eq_true.mp hno m hm
      simpa using this
    have hbeq : (group.folder == mainFolder) = false := by
      simpa [beq_eq_false_iff_ne] using hnm
    simp [hemp, hbeq, hrt, hany]

/-- Witness for C10: a non-main tenant with one untriggered pending
message. -/
theorem untriggered_messages_left_pending_witness :
    ((⟨"Alice", "alice", "@Andy", none, ""⟩ : RegisteredGroup).folder ≠ "main") ∧
    ((⟨"Alice", "alice", "@Andy", none, ""⟩ : RegisteredGroup).requiresTrigger ≠
      some false) ∧
    (([⟨"bob", "hello", "t1"⟩] : List Msg).all
      (fun m => !(m.content == "@Andy")) = true) ∧
    processGroupMessages "main" "Andy" (fun s => s == "@Andy")
      ⟨"Alice", "alice", "@Andy", none, ""⟩ "chat1" [⟨"bob", "hello", "t1"⟩]
      (.err "x") none = ⟨true, none, []⟩ :=
  ⟨by decide, by decide, by decide,
    untriggered_messages_left_pending "main" "Andy" (fun s => s == "@Andy")
      ⟨"Alice", "alice", "@Andy", none, ""⟩ "chat1" [⟨"bob", "hello", "t1"⟩]
      (.err "x") none (by decide) (by decide) (by decide)⟩

/-- C7: when the executor call of a message-triggered execution fails,
an error notice is sent back into the same tenant conversation and the
per-group cursor advances to the timestamp of the last pending
message. -/
theorem executor_failure_notice
    (mainFolder assistantName : String) (triggerTest : String → Bool)
    (group : RegisteredGroup) (chatJid : String) (pending : List Msg)
    (e : String) (cursor : Option String)
    (hne : pending ≠ [])
    (hrun : group.folder = mainFolder ∨ group.requiresTrigger = some false ∨
      pending.any (fun m => triggerTest m.content) = true) :
    processGroupMessages mainFolder assistantName triggerTest group chatJid
      pending (.err e) cursor =
      ⟨true, (pending.getLast?).map (fun m => m.timestamp),
        [.runAgentEff group.folder "",
         .sendMsg chatJid ("[Agent Error] " ++ e)]⟩ := by
  unfold processGroupMessages
  have hemp : pending.isEmpty = false := by
    simpa [List.isEmpty_iff] using hne
  rcases hrun with h | h | h
  · simp [hemp, h]
  · simp [hemp, h]
  · simp [hemp, h]

/-- Witness for C7: the main tenant with one pending message and a
failing executor. -/
theorem executor_failure_notice_witness :
    (([⟨"bob", "hi", "t1"⟩] : List Msg) ≠ []) ∧
    ((⟨"Main", "main", "@Andy", none, ""⟩ : RegisteredGroup).folder = "main" ∨
      (⟨"Main", "main", "@Andy", none, ""⟩ : RegisteredGroup).requiresTrigger =
        some false ∨
      ([⟨"bob", "hi", "t1"⟩] : List Msg).any (fun _ => false) = true) ∧
    processGroupMessages "main" "Andy" (fun _ => false)
      ⟨"Main", "main", "@Andy", none, ""⟩ "chat0" [⟨"bob", "hi", "t1"⟩]
      (.err "boom") none =
      ⟨true, (([⟨"bob", "hi", "t1"⟩] : List Msg).getLast?).map
          (fun m => m.timestamp),
        [.runAgentEff "main" "",
         .sendMsg "chat0" ("[Agent Error] " ++ "boom")]⟩ :=
  ⟨by decide, Or.inl rfl,
    executor_failure_notice "main" "Andy" (fun _ => false)
      ⟨"Main", "main", "@Andy", none, ""⟩ "chat0" [⟨"bob", "hi", "t1"⟩]
      "boom" none (by decide) (Or.inl rfl)⟩

/-- C9: the id of every own outbound message for which the socket
returned an id is recorded, and an inbound event carrying a recorded id
is skipped before any store write, so own messages are never stored and
never trigger an execution. -/
theorem echo_back_skipped (regs : String → Option RegisteredGroup)
    (translate : String → String) (sentIds : List String) (msg : InboundMsg)
    (id : String) (hid : msg.keyId = some id)
    (hmem : sentIds.contains id = true) :
    (sendMessageTrack sentIds (some id)).contains id = true ∧
    (handleInbound regs translate sentIds msg).2 = [] := by
  constructor
  · simp [sendMessageTrack]
  · unfold handleInbound
    rw [hid]
    by_cases h1 : msg.hasMessage
    · simp only [h1, not_true, if_false]
      cases hrj : msg.remoteJid with
      | none => simp
      | some raw =>
        by_cases hb : raw = "status@broadcast"
        · simp [hb]
        · have hm2 : id ∈ sentIds := by simpa using hmem
          simp [hb, hm2]
    · simp [h1]

/-- Witness for C9: one tracked id and a matching inbound event. -/
theorem echo_back_skipped_witness :
    ((⟨true, some "chat1", some "m1", false⟩ : InboundMsg).keyId = some "m1") ∧
    ((["m1"] : List String).contains "m1" = true) ∧
    ((sendMessageTrack ["m1"] (some "m1")).contains "m1" = true ∧
      (handleInbound (fun _ => none) (fun j => j) ["m1"]
        ⟨true, some "chat1", some "m1", false⟩).2 = []) :=
  ⟨rfl, by decide,
    echo_back_skipped (fun _ => none) (fun j => j) ["m1"]
      ⟨true, some "chat1", some "m1", false⟩ "m1" rfl (by decide)⟩

/-- C5: a pause, resume or cancel command mutates the referenced task
record exactly when the task exists and the issuer owns its folder or
is the main tenant; in every other case the task table is left
unchanged. -/
theorem task_mutation_authorized (env : IpcEnv) (data : IpcData)
    (sourceGroup : String) (isMain : Bool) (tid : String)
    (htid : data.taskId = some tid) (hne : tid ≠ "") :
    (data.type = "pause_task" →
      applyEffectsTasks env.tasks (processTaskIpc env data sourceGroup isMain) =
        (if taskAuthorized env.tasks tid sourceGroup isMain then
          env.tasks.map
            (fun t => if t.id = tid then { t with status := "paused" } else t)
        else env.tasks)) ∧
    (data.type = "resume_task" →
      applyEffectsTasks env.tasks (processTaskIpc env data sourceGroup isMain) =
        (if taskAuthorized env.tasks tid sourceGroup isMain then
          env.tasks.map
            (fun t => if t.id = tid then { t with status := "active" } else t)
        else env.tasks)) ∧
    (data.type = "cancel_task" →
      applyEffectsTasks env.tasks (processTaskIpc env data sourceGroup isMain) =
        (if taskAuthorized env.tasks tid sourceGroup isMain then
          env.tasks.filter (fun t => t.id ≠ tid)
        else env.tasks)) := by
  have htr2 : truthy (some tid) = true := by simp [truthy, hne]
  refine ⟨?_, ?_, ?_⟩ <;> intro hty <;>
      simp only [processTaskIpc, hty, htid, Option.getD_some] <;>
      rcases hget : getTaskById env.tasks tid with - | task
  all_goals {
    first
    | (simp [htr2, hget, taskAuthorized, applyEffectsTasks, applyEffectTasks];
       done)
    | { by_cases hauth : isMain = true ∨ task.group_folder = sourceGroup
        · have hta : taskAuthorized env.tasks tid sourceGroup isMain = true := by
            rcases hauth with h | h <;> simp [taskAuthorized, hget, h]
          simp [htr2, hget, hauth, hta, applyEffectsTasks, applyEffectTasks]
        · push_neg at hauth
          have hm : isMain = false := by
            cases hb : isMain
            · rfl
            · exact absurd hb hauth.1
          have hf : (task.group_folder == sourceGroup) = false := by
            simpa [beq_eq_false_iff_ne] using hauth.2
          have hta : taskAuthorized env.tasks tid sourceGroup isMain = false := by
            simp [taskAuthorized, hget, hm, hf]
          have hnauth : ¬(isMain = true ∨ task.group_folder = sourceGroup) := by
            rw [hm]
            simp [hauth.2]
          simp [htr2, hget, hnauth, hta, applyEffectsTasks, applyEffectTasks] }
  }

/-- Witness for C5: a non-main tenant pausing, resuming and cancelling
its own task. -/
theorem task_mutation_authorized_witness :
    (IpcData.taskId { type := "pause_task", taskId := some "t1" } = some "t1") ∧
    (("t1" : String) ≠ "") ∧
    (let env : IpcEnv :=
      { registeredGroups := fun _ => none
        tasks := [⟨"t1", "alice", "chatA", "p", "interval", "1000", "isolated",
          some "n", "active", "c"⟩]
        cronNext := fun _ => none
        parseIntJS := fun _ => none
        dateParseIso := fun _ => none
        nowIso := "now"
        nowPlusIso := fun _ => "later"
        freshTaskId := "task-new" }
     let data : IpcData := { type := "pause_task", taskId := some "t1" }
     (data.type = "pause_task" →
       applyEffectsTasks env.tasks (processTaskIpc env data "alice" false) =
         (if taskAuthorized env.tasks "t1" "alice" false then
           env.tasks.map
             (fun t => if t.id = "t1" then { t with status := "paused" } else t)
         else env.tasks)) ∧
     (data.type = "resume_task" →
       applyEffectsTasks env.tasks (processTaskIpc env data "alice" false) =
         (if taskAuthorized env.tasks "t1" "alice" false then
           env.tasks.map
             (fun t => if t.id = "t1" then { t with status := "active" } else t)
         else env.tasks)) ∧
     (data.type = "cancel_task" →
       applyEffectsTasks env.tasks (processTaskIpc env data "alice" false) =
         (if taskAuthorized env.tasks "t1" "alice" false then
           env.tasks.filter (fun t => t.id ≠ "t1")
         else env.tasks))) :=
  ⟨rfl, by decide,
    task_mutation_authorized
      { registeredGroups := fun _ => none
        tasks := [⟨"t1", "alice", "chatA", "p", "interval", "1000", "isolated",
          some "n", "active", "c"⟩]
        cronNext := fun _ => none
        parseIntJS := fun _ => none
        dateParseIso := fun _ => none
        nowIso := "now"
        nowPlusIso := fun _ => "later"
        freshTaskId := "task-new" }
      { type := "pause_task", taskId := some "t1" } "alice" false "t1" rfl
      (by decide)⟩

/-- C1: a command in a non-main tenant mailbox that references another
tenant resource has zero observable effect on it — a message command
whose target chat does not resolve to the issuing tenant sends no
message, a schedule command whose resolved target tenant differs from
the issuer creates no task, and a register command registers no tenant;
each such well-formed attempt is logged and dropped. -/
theorem cross_tenant_commands_blocked (env : IpcEnv)
    (assistantName sourceGroup : String) (dataM dataS dataR : IpcData)
    (hM : (match env.registeredGroups (dataM.chatJid.getD "") with
           | some tg => tg.folder == sourceGroup
           | none => false) = false)
    (hS : (match env.registeredGroups (dataS.targetJid.getD "") with
           | some tg => tg.folder == sourceGroup
           | none => false) = false)
    (hR : dataR.type = "register_group") :
    sentMessages (processMessageIpc env.registeredGroups assistantName dataM
      sourceGroup false) = [] ∧
    (dataM.type = "message" ∧ truthy dataM.chatJid = true ∧
        truthy dataM.text = true →
      (processMessageIpc env.registeredGroups assistantName dataM sourceGroup
        false).any isLogWarn = true) ∧
    createdTasks (processTaskIpc env dataS sourceGroup false) = [] ∧
    (dataS.type = "schedule_task" ∧ truthy dataS.prompt = true ∧
        truthy dataS.schedule_type = true ∧ truthy dataS.schedule_value = true ∧
        truthy dataS.targetJid = true →
      (processTaskIpc env dataS sourceGroup false).any isLogWarn = true) ∧
    registeredByEffects (processTaskIpc env dataR sourceGroup false) = [] ∧
    (processTaskIpc env dataR sourceGroup false).any isLogWarn = true := by
  have hsched := scheduleTaskBranch_blocked env dataS sourceGroup hS
  refine ⟨?_, ?_, ?_, ?_, ?_, ?_⟩
  · unfold processMessageIpc
    dsimp only
    split
    · rw [Bool.false_or, hM]
      simp [sentMessages]
    · simp [sentMessages]
  · intro hwf
    unfold processMessageIpc
    dsimp only
    rw [if_pos ⟨hwf.1, hwf.2.1, hwf.2.2⟩]
    rw [Bool.false_or, hM]
    simp [isLogWarn]
  · unfold processTaskIpc
    dsimp only
    split_ifs
    all_goals try exact hsched.1
    all_goals try (simp [createdTasks]; done)
    all_goals
      rcases hg : getTaskById env.tasks (dataS.taskId.getD "") with - | task <;>
        dsimp only <;> (try split_ifs) <;> simp [createdTasks]
  · intro hwf
    obtain ⟨ht1, ht2, ht3, ht4, ht5⟩ := hwf
    simp only [processTaskIpc, ht1, ht2, ht3, ht4, ht5]
    simpa using hsched.2
  · simp [processTaskIpc, hR, registeredByEffects, isLogWarn]
  · simp [processTaskIpc, hR, isLogWarn]

/-- Witness for C1: tenant alice attempting a message to a chat of
tenant bob, a schedule for bob, and a registration. -/
theorem cross_tenant_commands_blocked_witness :
    (let regs : String → Option RegisteredGroup := fun j =>
      if j = "bobchat" then some ⟨"Bob", "bob", "@Andy", none, ""⟩ else none
     let env : IpcEnv :=
      { registeredGroups := regs
        tasks := []
        cronNext := fun _ => none
        parseIntJS := fun _ => none
        dateParseIso := fun _ => none
        nowIso := "now"
        nowPlusIso := fun _ => "later"
        freshTaskId := "task-new" }
     let dataM : IpcData :=
      { type := "message"
        chatJid := some "bobchat"
        text := some "hi" }
     let dataS : IpcData :=
      { type := "schedule_task"
        prompt := some "p"
        schedule_type := some "once"
        schedule_value := some "2030-01-01"
        targetJid := some "bobchat" }
     let dataR : IpcData :=
      { type := "register_group"
        jid := some "x"
        name := some "X"
        folder := some "x"
        trigger := some "@X" }
     ((match env.registeredGroups (dataM.chatJid.getD "") with
       | some tg => tg.folder == "alice"
       | none => false) = false) ∧
     ((match env.registeredGroups (dataS.targetJid.getD "") with
       | some tg => tg.folder == "alice"
       | none => false) = false) ∧
     (dataR.type = "register_group") ∧
     (sentMessages (processMessageIpc env.registeredGroups "Andy" dataM
        "alice" false) = [] ∧
      (dataM.type = "message" ∧ truthy dataM.chatJid = true ∧
          truthy dataM.text = true →
        (processMessageIpc env.registeredGroups "Andy" dataM "alice"
          false).any isLogWarn = true) ∧
      createdTasks (processTaskIpc env dataS "alice" false) = [] ∧
      (dataS.type = "schedule_task" ∧ truthy dataS.prompt = true ∧
          truthy dataS.schedule_type = true ∧
          truthy dataS.schedule_value = true ∧
          truthy dataS.targetJid = true →
        (processTaskIpc env dataS "alice" false).any isLogWarn = true) ∧
      registeredByEffects (processTaskIpc env dataR "alice" false) = [] ∧
      (processTaskIpc env dataR "alice" false).any isLogWarn = true)) :=
  ⟨rfl, rfl, rfl,
    cross_tenant_commands_blocked
      { registeredGroups := fun j =>
          if j = "bobchat" then some ⟨"Bob", "bob", "@Andy", none, ""⟩ else none
        tasks := []
        cronNext := fun _ => none
        parseIntJS := fun _ => none
        dateParseIso := fun _ => none
        nowIso := "now"
        nowPlusIso := fun _ => "later"
        freshTaskId := "task-new" }
      "Andy" "alice"
      { type := "message"
        chatJid := some "bobchat"
        text := some "hi" }
      { type := "schedule_task"
        prompt := some "p"
        schedule_type := some "once"
        schedule_value := some "2030-01-01"
        targetJid := some "bobchat" }
      { type := "register_group"
        jid := some "x"
        name := some "X"
        folder := some "x"
        trigger := some "@X" }
      rfl rfl rfl⟩

/-- C4: a well-formed, authorized schedule command persists no task
when the schedule expression is invalid (unparseable cron, interval
that is NaN or not positive, invalid timestamp), and otherwise persists
exactly one active task whose next_run is the next cron occurrence for
cron, now plus the interval for interval, and the given timestamp for
once. -/
theorem schedule_task_validation (env : IpcEnv) (data : IpcData)
    (sourceGroup : String) (isMain : Bool) (tg : RegisteredGroup)
    (htype : data.type = "schedule_task")
    (hp : truthy data.prompt = true)
    (hst : truthy data.schedule_type = true)
    (hsv : truthy data.schedule_value = true)
    (htj : truthy data.targetJid = true)
    (hreg : env.registeredGroups (data.targetJid.getD "") = some tg)
    (hauth : isMain = true ∨ tg.folder = sourceGroup) :
    (data.schedule_type = some "cron" →
      createdTasks (processTaskIpc env data sourceGroup isMain) =
        (match env.cronNext (data.schedule_value.getD "") with
         | none => []
         | some nr =>
           [{ id := env.freshTaskId
              group_folder := tg.folder
              chat_jid := data.targetJid.getD ""
              prompt := data.prompt.getD ""
              schedule_type := "cron"
              schedule_value := data.schedule_value.getD ""
              context_mode := resolveContextMode data.context_mode
              next_run := some nr
              status := "active"
              created_at := env.nowIso }])) ∧
    (data.schedule_type = some "interval" →
      createdTasks (processTaskIpc env data sourceGroup isMain) =
        (match env.parseIntJS (data.schedule_value.getD "") with
         | none => []
         | some ms =>
           if ms ≤ 0 then []
           else
             [{ id := env.freshTaskId
                group_folder := tg.folder
                chat_jid := data.targetJid.getD ""
                prompt := data.prompt.getD ""
                schedule_type := "interval"
                schedule_value := data.schedule_value.getD ""
                context_mode := resolveContextMode data.context_mode
                next_run := some (env.nowPlusIso ms)
                status := "active"
                created_at := env.nowIso }])) ∧
    (data.schedule_type = some "once" →
      createdTasks (processTaskIpc env data sourceGroup isMain) =
        (match env.dateParseIso (data.schedule_value.getD "") with
         | none => []
         | some iso =>
           [{ id := env.freshTaskId
              group_folder := tg.folder
              chat_jid := data.targetJid.getD ""
              prompt := data.prompt.getD ""
              schedule_type := "once"
              schedule_value := data.schedule_value.getD ""
              context_mode := resolveContextMode data.context_mode
              next_run := some iso
              status := "active"
              created_at := env.nowIso }])) := by
  have hbranch : processTaskIpc env data sourceGroup isMain =
      scheduleTaskBranch env data sourceGroup isMain := by
    simp [processTaskIpc, htype, hp, hst, hsv, htj]
  have hcond : ¬((!isMain) = true ∧ tg.folder ≠ sourceGroup) := by
    rcases hauth with h | h
    · simp [h]
    · simp [h]
  refine ⟨?_, ?_, ?_⟩ <;> intro hty <;>
    rw [hbranch] <;> unfold scheduleTaskBranch <;> dsimp only <;>
    rw [hreg] <;> dsimp only <;> rw [if_neg hcond] <;>
    simp only [hty, Option.getD_some]
  · rcases hc : env.cronNext (data.schedule_value.getD "") with - | nr <;>
      simp [createdTasks]
  · rcases hpi : env.parseIntJS (data.schedule_value.getD "") with - | ms
    · simp [createdTasks]
    · by_cases hms : ms ≤ 0 <;> simp [hms, createdTasks]
  · rcases hd : env.dateParseIso (data.schedule_value.getD "") with - | iso <;>
      simp [createdTasks]

/-- Witness for C4: tenant bob schedules a cron task for itself with a
parser that accepts the expression. -/
theorem schedule_task_validation_witness :
    (let env : IpcEnv :=
      { registeredGroups := fun j =>
          if j = "bobchat" then some ⟨"Bob", "bob", "@Andy", none, ""⟩ else none
        tasks := []
        cronNext := fun s => if s = "* * * * *" then some "NEXT" else none
        parseIntJS := fun _ => none
        dateParseIso := fun _ => none
        nowIso := "now"
        nowPlusIso := fun _ => "later"
        freshTaskId := "task-new" }
     let data : IpcData :=
      { type := "schedule_task"
        prompt := some "p"
        schedule_type := some "cron"
        schedule_value := some "* * * * *"
        targetJid := some "bobchat" }
     (data.type = "schedule_task") ∧
     (truthy data.prompt = true) ∧
     (truthy data.schedule_type = true) ∧
     (truthy data.schedule_value = true) ∧
     (truthy data.targetJid = true) ∧
     (env.registeredGroups (data.targetJid.getD "") =
       some ⟨"Bob", "bob", "@Andy", none, ""⟩) ∧
     (false = true ∨
       (⟨"Bob", "bob", "@Andy", none, ""⟩ : RegisteredGroup).folder = "bob") ∧
     (data.schedule_type = some "cron" →
       createdTasks (processTaskIpc env data "bob" false) =
         (match env.cronNext (data.schedule_value.getD "") with
          | none => []
          | some nr =>
            [{ id := env.freshTaskId
               group_folder := (⟨"Bob", "bob", "@Andy", none, ""⟩ : RegisteredGroup).folder
               chat_jid := data.targetJid.getD ""
               prompt := data.prompt.getD ""
               schedule_type := "cron"
               schedule_value := data.schedule_value.getD ""
               context_mode := resolveContextMode data.context_mode
               next_run := some nr
               status := "active"
               created_at := env.nowIso }]))) :=
  ⟨rfl, rfl, rfl, rfl, rfl, rfl, Or.inr rfl,
    (schedule_task_validation
      { registeredGroups := fun j =>
          if j = "bobchat" then some ⟨"Bob", "bob", "@Andy", none, ""⟩ else none
        tasks := []
        cronNext := fun s => if s = "* * * * *" then some "NEXT" else none
        parseIntJS := fun _ => none
        dateParseIso := fun _ => none
        nowIso := "now"
        nowPlusIso := fun _ => "later"
        freshTaskId := "task-new" }
      { type := "schedule_task"
        prompt := some "p"
        schedule_type := some "cron"
        schedule_value := some "* * * * *"
        targetJid := some "bobchat" }
      "bob" false ⟨"Bob", "bob", "@Andy", none, ""⟩
      rfl rfl rfl rfl rfl rfl (Or.inr rfl)).1⟩

/-- C2: a consumed command file reaches exactly one terminal state: it
always disappears from the mailbox and from the claimed name; on a
successful apply the errors directory is untouched and the file is
unlinked, on any parse or handler failure the content appears verbatim
in the errors directory under the source folder and original name, and
the two outcomes exclude each other. -/
theorem command_file_single_terminal (parseOk handlerThrows : String → Bool)
    (sourceGroup : String) (fs : MailboxFs) (file content : String)
    (hc : fileContent fs.pending file = some content) :
    fileContent (processOneFile parseOk handlerThrows sourceGroup fs
      file).1.pending file = none ∧
    fileContent (processOneFile parseOk handlerThrows sourceGroup fs
      file).1.processing (file ++ ".processing") = none ∧
    (parseOk content = true ∧ handlerThrows content = false →
      (processOneFile parseOk handlerThrows sourceGroup fs file).1.errors =
        fs.errors ∧
      FsOp.unlink (file ++ ".processing") ∈
        (processOneFile parseOk handlerThrows sourceGroup fs file).2) ∧
    (¬(parseOk content = true ∧ handlerThrows content = false) →
      (processOneFile parseOk handlerThrows sourceGroup fs file).1.errors =
        (sourceGroup ++ "-" ++ file, content) :: fs.errors) ∧
    fs.errors ≠ (sourceGroup ++ "-" ++ file, content) :: fs.errors := by
  unfold processOneFile
  rw [hc]
  dsimp only
  by_cases hok : parseOk content = true ∧ ¬handlerThrows content = true
  · rw [if_pos hok]
    refine ⟨fileContent_removeFile _ _, fileContent_removeFile _ _, ?_, ?_, ?_⟩
    · intro _
      exact ⟨rfl, by simp⟩
    · intro h
      refine absurd ⟨hok.1, ?_⟩ h
      cases hb : handlerThrows content
      · rfl
      · exact absurd hb hok.2
    · intro h
      exact List.cons_ne_self _ _ h.symm
  · rw [if_neg hok]
    by_cases hp : parseOk content = true
    · rw [if_pos hp]
      refine ⟨fileContent_removeFile _ _, fileContent_removeFile _ _, ?_, ?_, ?_⟩
      · intro h
        exact absurd ⟨h.1, by simp [h.2]⟩ hok
      · intro _
        rfl
      · intro h
        exact List.cons_ne_self _ _ h.symm
    · rw [if_neg hp]
      refine ⟨fileContent_removeFile _ _, fileContent_removeFile _ _, ?_, ?_, ?_⟩
      · intro h
        exact absurd h.1 hp
      · intro _
        rfl
      · intro h
        exact List.cons_ne_self _ _ h.symm

/-- Witness for C2: a mailbox with one file whose handler succeeds. -/
theorem command_file_single_terminal_witness :
    (fileContent (⟨[("a.json", "X")], [], []⟩ : MailboxFs).pending "a.json" = some "X") ∧
    (fileContent (processOneFile (fun _ => true) (fun _ => false) "alice"
        (⟨[("a.json", "X")], [], []⟩ : MailboxFs)
        "a.json").1.pending "a.json" = none ∧
      fileContent (processOneFile (fun _ => true) (fun _ => false) "alice"
        (⟨[("a.json", "X")], [], []⟩ : MailboxFs)
        "a.json").1.processing ("a.json" ++ ".processing") = none ∧
      ((fun _ : String => true) "X" = true ∧
          (fun _ : String => false) "X" = false →
        (processOneFile (fun _ => true) (fun _ => false) "alice"
          (⟨[("a.json", "X")], [], []⟩ : MailboxFs)
          "a.json").1.errors = (⟨[("a.json", "X")], [], []⟩ : MailboxFs).errors ∧
        FsOp.unlink ("a.json" ++ ".processing") ∈
          (processOneFile (fun _ => true) (fun _ => false) "alice"
            (⟨[("a.json", "X")], [], []⟩ : MailboxFs)
            "a.json").2) ∧
      (¬((fun _ : String => true) "X" = true ∧
          (fun _ : String => false) "X" = false) →
        (processOneFile (fun _ => true) (fun _ => false) "alice"
          (⟨[("a.json", "X")], [], []⟩ : MailboxFs)
          "a.json").1.errors =
          ("alice" ++ "-" ++ "a.json", "X") :: (⟨[("a.json", "X")], [], []⟩ : MailboxFs).errors) ∧
      (⟨[("a.json", "X")], [], []⟩ : MailboxFs).errors ≠
        ("alice" ++ "-" ++ "a.json", "X") ::
          (⟨[("a.json", "X")], [], []⟩ : MailboxFs).errors) :=
  ⟨rfl,
    command_file_single_terminal (fun _ => true) (fun _ => false) "alice"
      (⟨[("a.json", "X")], [], []⟩ : MailboxFs)
      "a.json" "X" rfl⟩

/-- C6: the claim is atomic and precedes any read: the first two
filesystem operations of a processed file trace are the rename to the
.processing suffix and then the read of the claimed name; a claimed
name never appears in the .json listing of a later tick; and a file
absent from the mailbox (already claimed) is never read and never
applied. -/
theorem claim_before_read (parseOk handlerThrows : String → Bool)
    (sourceGroup : String) (fs fs2 : MailboxFs) (file content : String)
    (entries : List String)
    (hc : fileContent fs.pending file = some content)
    (hc2 : fileContent fs2.pending file = none) :
    ((processOneFile parseOk handlerThrows sourceGroup fs file).2.take 2 =
      [FsOp.rename file (file ++ ".processing"),
       FsOp.readFile (file ++ ".processing")]) ∧
    ((listCommandFiles entries).contains (file ++ ".processing") = false) ∧
    ((processOneFile parseOk handlerThrows sourceGroup fs2 file).2.any
      isReadOp = false) ∧
    ((processOneFile parseOk handlerThrows sourceGroup fs2 file).2.any
      isApplyOp = false) := by
  refine ⟨?_, ?_, ?_, ?_⟩
  · unfold processOneFile
    rw [hc]
    dsimp only
    split_ifs <;> rfl
  · have hnm : (file ++ ".processing") ∉ listCommandFiles entries := by
      intro hmem
      have hfil := List.of_mem_filter hmem
      rw [strEndsWith_processing_json] at hfil
      exact absurd hfil (by simp)
    simpa using hnm
  · unfold processOneFile
    rw [hc2]
    dsimp only
    rcases fileContent fs2.processing (file ++ ".processing") with - | c2 <;>
      simp [isReadOp]
  · unfold processOneFile
    rw [hc2]
    dsimp only
    rcases fileContent fs2.processing (file ++ ".processing") with - | c2 <;>
      simp [isApplyOp]

/-- Witness for C6: one claimable file, an already-claimed mailbox, and
a listing holding a fresh file next to a claimed one. -/
theorem claim_before_read_witness :
    (fileContent (⟨[("a.json", "X")], [], []⟩ : MailboxFs).pending "a.json" = some "X") ∧
    (fileContent (⟨[], [], []⟩ : MailboxFs).pending "a.json" = none) ∧
    (((processOneFile (fun _ => true) (fun _ => false) "alice"
        (⟨[("a.json", "X")], [], []⟩ : MailboxFs)
        "a.json").2.take 2 =
      [FsOp.rename "a.json" ("a.json" ++ ".processing"),
       FsOp.readFile ("a.json" ++ ".processing")]) ∧
     ((listCommandFiles ["b.json", "a.json.processing"]).contains
        ("a.json" ++ ".processing") = false) ∧
     ((processOneFile (fun _ => true) (fun _ => false) "alice"
        (⟨[], [], []⟩ : MailboxFs) "a.json").2.any
       isReadOp = false) ∧
     ((processOneFile (fun _ => true) (fun _ => false) "alice"
        (⟨[], [], []⟩ : MailboxFs) "a.json").2.any
       isApplyOp = false)) :=
  ⟨rfl, rfl,
    claim_before_read (fun _ => true) (fun _ => false) "alice"
      (⟨[("a.json", "X")], [], []⟩ : MailboxFs)
      (⟨[], [], []⟩ : MailboxFs) "a.json" "X"
      ["b.json", "a.json.processing"] rfl rfl⟩

end Nanoclaw
